import Mathlib

/-
Verification of the token-bucket rate limiter in
src/rate-limiter-cpp/server.cc against its specification.

Modelling choices for the shallow embedding:
  * C++ `double` quantities (rates, capacities, token counts) are modelled
    as rationals (ℚ): the source treats them as exact real arithmetic.
  * The monotonic clock (`std::chrono::steady_clock`) is modelled by an
    explicit rational `now` parameter, measured in seconds; every operation
    that reads the clock takes it as an argument.
  * `static_cast<int64_t>` on a nonnegative double truncates toward zero,
    modelled by `truncToZero`.
  * The per-bucket mutex and the registry mutex serialize critical
    sections; concurrent executions are therefore modelled as sequences of
    whole operations (refill-then-decide is one atomic unit).
  * `std::unordered_map<std::string, std::shared_ptr<TokenBucket>>` is
    modelled as a function `String → Option TokenBucket`; in-place mutation
    of the shared bucket is modelled by writing the updated bucket back
    under its key.
-/

set_option maxHeartbeats 1000000

namespace RateLimiterCpp

/-- Truncation toward zero, the behaviour of C++ `static_cast<int64_t>`
applied to a double (server.cc line 47). -/
def truncToZero (q : ℚ) : ℤ :=
  if 0 ≤ q then ⌊q⌋ else -⌊-q⌋

/-- State of one token bucket: class `TokenBucket` (server.cc lines 23-90).
Field names follow the source (`refill_rate_`, `bucket_capacity_`,
`tokens_`, `last_refill_`). -/
structure TokenBucket where
  refill_rate : ℚ
  bucket_capacity : ℚ
  tokens : ℚ
  last_refill : ℚ
  deriving DecidableEq

/-- The `TokenBucket` constructor (server.cc lines 25-29): the bucket starts
full (`tokens_ = bucket_capacity`) and `last_refill_` is the current
instant. -/
def TokenBucket.create (refill_rate bucket_capacity now : ℚ) : TokenBucket :=
  { refill_rate := refill_rate
    bucket_capacity := bucket_capacity
    tokens := bucket_capacity
    last_refill := now }

/-- `TokenBucket::refill` (server.cc lines 74-83): add
`elapsed_seconds * refill_rate_` tokens, capped at capacity, and advance
`last_refill_`, but only when the computed `new_tokens` is positive. -/
def TokenBucket.refill (b : TokenBucket) (now : ℚ) : TokenBucket :=
  if 0 < (now - b.last_refill) * b.refill_rate then
    { b with
        tokens := min b.bucket_capacity (b.tokens + (now - b.last_refill) * b.refill_rate)
        last_refill := now }
  else b

/-- The out-parameters of `TokenBucket::allow` together with its boolean
result (server.cc line 31). -/
structure AllowOutcome where
  allowed : Bool
  retry_after_ms : ℤ
  remaining : ℚ
  deriving DecidableEq

/-- `TokenBucket::allow` (server.cc lines 31-51): refill, then consume
`token_cost` tokens if available; otherwise report the truncated wait time
`static_cast<int64_t>((missing_tokens / refill_rate_) * 1000)` and leave the
tokens unchanged. Returns the outcome and the updated bucket. -/
def TokenBucket.allow (b : TokenBucket) (token_cost : ℕ) (now : ℚ) :
    AllowOutcome × TokenBucket :=
  if (token_cost : ℚ) ≤ (b.refill now).tokens then
    ({ allowed := true
       retry_after_ms := 0
       remaining := (b.refill now).tokens - token_cost },
     { b.refill now with tokens := (b.refill now).tokens - token_cost })
  else
    ({ allowed := false
       retry_after_ms :=
         truncToZero ((((token_cost : ℚ) - (b.refill now).tokens) / (b.refill now).refill_rate) * 1000)
       remaining := (b.refill now).tokens },
     b.refill now)

/-- `TokenBucket::get_tokens` (server.cc lines 53-57): refill, then read the
token count. Returns the reading and the updated bucket. -/
def TokenBucket.get_tokens (b : TokenBucket) (now : ℚ) : ℚ × TokenBucket :=
  ((b.refill now).tokens, b.refill now)

/-- `TokenBucket::get_last_refill_ms` (server.cc lines 67-71): milliseconds
since the last refill, truncated by `duration_cast`. -/
def TokenBucket.get_last_refill_ms (b : TokenBucket) (now : ℚ) : ℤ :=
  truncToZero ((now - b.last_refill) * 1000)

/-- The registry field `rate_limiters_` of `RateLimiterServiceImpl`
(server.cc line 184). -/
def Registry := String → Option TokenBucket

/-- The `RateLimiterServiceImpl` constructor (server.cc lines 95-100):
pre-seeds `flags_list` at (10, 100) and `flag_write` at (5, 50). -/
def Registry.init (now : ℚ) : Registry := fun k =>
  if k = "flags_list" then some (TokenBucket.create 10 100 now)
  else if k = "flag_write" then some (TokenBucket.create 5 50 now)
  else none

/-- Store a bucket under a key: models both `rate_limiters_[key] = ...` and
the in-place mutation of the bucket shared through `shared_ptr`. -/
def Registry.store (r : Registry) (key : String) (b : TokenBucket) : Registry :=
  fun k => if k = key then some b else r k

/-- `RateLimiterServiceImpl::get_or_create_limiter` (server.cc lines
170-182): look the key up; if absent, insert a default bucket with
`refill_rate = 20`, `capacity = 50`. -/
def get_or_create_limiter (r : Registry) (key : String) (now : ℚ) :
    TokenBucket × Registry :=
  match r key with
  | some b => (b, r)
  | none => (TokenBucket.create 20 50 now, Registry.store r key (TokenBucket.create 20 50 now))

/-- The fields of `AllowResponse` set by the `Allow` handler. -/
structure AllowResponse where
  allowed : Bool
  retry_after_ms : ℤ
  quota_remaining : ℚ
  deriving DecidableEq

/-- `RateLimiterServiceImpl::Allow` (server.cc lines 102-124): a zero
`token_cost` is normalized to 1, then the key's bucket (created on demand)
decides. -/
def serviceAllow (r : Registry) (key : String) (token_cost : ℕ) (now : ℚ) :
    AllowResponse × Registry :=
  let cost := if token_cost = 0 then 1 else token_cost
  let p := get_or_create_limiter r key now
  let q := TokenBucket.allow p.1 cost now
  ({ allowed := q.1.allowed
     retry_after_ms := q.1.retry_after_ms
     quota_remaining := q.1.remaining },
   Registry.store p.2 key q.2)

/-- The fields of `StatusResponse` set by the `Status` handler. -/
structure StatusResponse where
  key : String
  tokens_remaining : ℚ
  refill_rate : ℚ
  bucket_capacity : ℚ
  last_refill_time_ms : ℤ
  deriving DecidableEq

/-- `RateLimiterServiceImpl::Status` (server.cc lines 126-141): resolve the
bucket (created on demand), refill-and-read its tokens, and report its
parameters. -/
def serviceStatus (r : Registry) (key : String) (now : ℚ) :
    StatusResponse × Registry :=
  let p := get_or_create_limiter r key now
  let q := TokenBucket.get_tokens p.1 now
  ({ key := key
     tokens_remaining := q.1
     refill_rate := q.2.refill_rate
     bucket_capacity := q.2.bucket_capacity
     last_refill_time_ms := q.2.get_last_refill_ms now },
   Registry.store p.2 key q.2)

/-- The fields of `ConfigureResponse` set by the `Configure` handler. -/
structure ConfigureResponse where
  success : Bool
  message : String
  deriving DecidableEq

/-- `RateLimiterServiceImpl::Configure` (server.cc lines 143-167): reject
non-positive parameters without touching the registry; otherwise replace
the key's bucket with a fresh full one. -/
def serviceConfigure (r : Registry) (key : String)
    (refill_rate bucket_capacity now : ℚ) : ConfigureResponse × Registry :=
  if refill_rate ≤ 0 ∨ bucket_capacity ≤ 0 then
    ({ success := false
       message := "Invalid rate limiter configuration. Values must be positive." }, r)
  else
    ({ success := true
       message := "Rate limiter configured successfully" },
     Registry.store r key (TokenBucket.create refill_rate bucket_capacity now))

/-! Basic lemmas about refill and allow. -/

theorem refill_refill_rate (b : TokenBucket) (now : ℚ) :
    (b.refill now).refill_rate = b.refill_rate := by
  unfold TokenBucket.refill; split <;> rfl

theorem refill_capacity (b : TokenBucket) (now : ℚ) :
    (b.refill now).bucket_capacity = b.bucket_capacity := by
  unfold TokenBucket.refill; split <;> rfl

theorem refill_at_last (b : TokenBucket) (now : ℚ) (h : b.last_refill = now) :
    b.refill now = b := by
  unfold TokenBucket.refill
  rw [h, sub_self, zero_mul]
  simp

theorem refill_idem (b : TokenBucket) (now : ℚ) :
    (b.refill now).refill now = b.refill now := by
  by_cases h : 0 < (now - b.last_refill) * b.refill_rate
  · have h1 : b.refill now =
        { b with
            tokens := min b.bucket_capacity (b.tokens + (now - b.last_refill) * b.refill_rate)
            last_refill := now } := by
      unfold TokenBucket.refill; rw [if_pos h]
    rw [h1]
    exact refill_at_last _ _ rfl
  · have h1 : b.refill now = b := by
      unfold TokenBucket.refill; rw [if_neg h]
    rw [h1, h1]

theorem allow_at_now (rate cap t now : ℚ) (c : ℕ) :
    TokenBucket.allow ⟨rate, cap, t, now⟩ c now =
      if (c : ℚ) ≤ t then
        ({ allowed := true, retry_after_ms := 0, remaining := t - c },
         ⟨rate, cap, t - c, now⟩)
      else
        ({ allowed := false, retry_after_ms := truncToZero ((((c : ℚ) - t) / rate) * 1000),
           remaining := t },
         ⟨rate, cap, t, now⟩) := by
  have h : TokenBucket.refill ⟨rate, cap, t, now⟩ now = ⟨rate, cap, t, now⟩ :=
    refill_at_last _ _ rfl
  unfold TokenBucket.allow
  rw [h]

theorem floorQ_eval (q : ℚ) (z : ℤ) (h1 : (z : ℚ) ≤ q) (h2 : q < z + 1) : ⌊q⌋ = z :=
  Int.floor_eq_iff.mpr ⟨h1, h2⟩

theorem ceilQ_eval (q : ℚ) (z : ℤ) (h1 : (z : ℚ) - 1 < q) (h2 : q ≤ z) : ⌈q⌉ = z :=
  Int.ceil_eq_iff.mpr ⟨h1, h2⟩

theorem allow_false_state (b : TokenBucket) (c : ℕ) (now : ℚ)
    (h : (b.allow c now).1.allowed = false) :
    (b.allow c now).2 = b.refill now := by
  unfold TokenBucket.allow at h ⊢
  by_cases hle : (c : ℚ) ≤ (b.refill now).tokens
  · rw [if_pos hle] at h; exact absurd h (by simp)
  · rw [if_neg hle]

theorem allow_true_tokens (b : TokenBucket) (c : ℕ) (now : ℚ)
    (h : (b.allow c now).1.allowed = true) :
    (b.allow c now).2.tokens = (b.refill now).tokens - c := by
  unfold TokenBucket.allow at h ⊢
  by_cases hle : (c : ℚ) ≤ (b.refill now).tokens
  · rw [if_pos hle]
  · rw [if_neg hle] at h; exact absurd h (by simp)

theorem refill_inv (b : TokenBucket) (now : ℚ)
    (h0 : 0 ≤ b.tokens) (h1 : b.tokens ≤ b.bucket_capacity) :
    0 ≤ (b.refill now).tokens ∧ (b.refill now).tokens ≤ (b.refill now).bucket_capacity := by
  unfold TokenBucket.refill
  split
  · rename_i h
    constructor
    · exact le_min (le_trans h0 h1) (by linarith)
    · exact min_le_left _ _
  · exact ⟨h0, h1⟩

theorem refill_mono (b : TokenBucket) (now : ℚ) (h1 : b.tokens ≤ b.bucket_capacity) :
    b.tokens ≤ (b.refill now).tokens := by
  unfold TokenBucket.refill
  split
  · rename_i h
    exact le_min h1 (by linarith)
  · exact le_refl _

theorem allow_inv (b : TokenBucket) (c : ℕ) (now : ℚ)
    (h0 : 0 ≤ b.tokens) (h1 : b.tokens ≤ b.bucket_capacity) :
    0 ≤ (b.allow c now).2.tokens ∧
      (b.allow c now).2.tokens ≤ (b.allow c now).2.bucket_capacity := by
  have hr := refill_inv b now h0 h1
  unfold TokenBucket.allow
  by_cases hle : (c : ℚ) ≤ (b.refill now).tokens
  · rw [if_pos hle]
    have hc : (0 : ℚ) ≤ (c : ℚ) := Nat.cast_nonneg c
    constructor
    · show 0 ≤ (b.refill now).tokens - (c : ℚ)
      linarith
    · show (b.refill now).tokens - (c : ℚ) ≤ (b.refill now).bucket_capacity
      linarith [hr.2]
  · rw [if_neg hle]; exact hr

/-- The operations observable on a single bucket after its construction:
`refill`, `allow` (the decide/try_consume path) and the refill-and-read done
by `get_tokens` (the snapshot path). -/
inductive BucketOp where
  | refillCall (now : ℚ)
  | allowCall (cost : ℕ) (now : ℚ)
  | snapshotCall (now : ℚ)

/-- Apply one operation to a bucket, keeping only the bucket post-state. -/
def BucketOp.apply (b : TokenBucket) : BucketOp → TokenBucket
  | .refillCall now => b.refill now
  | .allowCall c now => (b.allow c now).2
  | .snapshotCall now => (b.get_tokens now).2

/-- The bucket reached from a fresh `TokenBucket(rate, cap)` constructed at
instant `t0` after a sequence of operations. -/
def bucketRun (rate cap t0 : ℚ) (ops : List BucketOp) : TokenBucket :=
  List.foldl BucketOp.apply (TokenBucket.create rate cap t0) ops

theorem bucketRun_inv (rate cap t0 : ℚ) (hcap : 0 ≤ cap) (ops : List BucketOp) :
    0 ≤ (bucketRun rate cap t0 ops).tokens ∧
      (bucketRun rate cap t0 ops).tokens ≤ (bucketRun rate cap t0 ops).bucket_capacity := by
  suffices h : ∀ (l : List BucketOp) (b : TokenBucket),
      0 ≤ b.tokens → b.tokens ≤ b.bucket_capacity →
      0 ≤ (List.foldl BucketOp.apply b l).tokens ∧
        (List.foldl BucketOp.apply b l).tokens ≤
          (List.foldl BucketOp.apply b l).bucket_capacity by
    exact h ops _ hcap (le_refl cap)
  intro l
  induction l with
  | nil => intro b h0 h1; exact ⟨h0, h1⟩
  | cons op rest ih =>
      intro b h0 h1
      have hstep : 0 ≤ (BucketOp.apply b op).tokens ∧
          (BucketOp.apply b op).tokens ≤ (BucketOp.apply b op).bucket_capacity := by
        cases op with
        | refillCall now => exact refill_inv b now h0 h1
        | allowCall c now => exact allow_inv b c now h0 h1
        | snapshotCall now => exact refill_inv b now h0 h1
      exact ih _ hstep.1 hstep.2

/-- C2: along every sequence of bucket operations after construction with a
nonnegative capacity, `0 ≤ tokens ≤ capacity` holds at every observable
point; moreover a refill never decreases the token count, a successful
`allow` consumes exactly its cost from the refilled count, and a failed
`allow` leaves the refilled count unchanged. -/
theorem C2_bucket_invariant (rate cap t0 : ℚ) (hcap : 0 ≤ cap)
    (ops : List BucketOp) (c : ℕ) (now : ℚ) :
    (0 ≤ (bucketRun rate cap t0 ops).tokens ∧
      (bucketRun rate cap t0 ops).tokens ≤ (bucketRun rate cap t0 ops).bucket_capacity) ∧
    (bucketRun rate cap t0 ops).tokens ≤ ((bucketRun rate cap t0 ops).refill now).tokens ∧
    (((bucketRun rate cap t0 ops).allow c now).1.allowed = true →
      ((bucketRun rate cap t0 ops).allow c now).2.tokens =
        ((bucketRun rate cap t0 ops).refill now).tokens - c) ∧
    (((bucketRun rate cap t0 ops).allow c now).1.allowed = false →
      ((bucketRun rate cap t0 ops).allow c now).2.tokens =
        ((bucketRun rate cap t0 ops).refill now).tokens) := by
  have hinv := bucketRun_inv rate cap t0 hcap ops
  refine ⟨hinv, refill_mono _ now hinv.2, ?_, ?_⟩
  · intro h; exact allow_true_tokens _ c now h
  · intro h; rw [allow_false_state _ c now h]

/-- Closed witness for `C2_bucket_invariant` at the default configuration
`(rate 20, capacity 50)` with a consume of 7, a later refill, and a final
oversized request of 60 at instant 2. -/
theorem C2_bucket_invariant_witness :
    0 ≤ (50 : ℚ) ∧
    ((0 ≤ (bucketRun 20 50 0 [BucketOp.allowCall 7 1, BucketOp.snapshotCall 2]).tokens ∧
      (bucketRun 20 50 0 [BucketOp.allowCall 7 1, BucketOp.snapshotCall 2]).tokens ≤
        (bucketRun 20 50 0 [BucketOp.allowCall 7 1, BucketOp.snapshotCall 2]).bucket_capacity) ∧
    (bucketRun 20 50 0 [BucketOp.allowCall 7 1, BucketOp.snapshotCall 2]).tokens ≤
      ((bucketRun 20 50 0 [BucketOp.allowCall 7 1, BucketOp.snapshotCall 2]).refill 2).tokens ∧
    (((bucketRun 20 50 0 [BucketOp.allowCall 7 1, BucketOp.snapshotCall 2]).allow 60 2).1.allowed = true →
      ((bucketRun 20 50 0 [BucketOp.allowCall 7 1, BucketOp.snapshotCall 2]).allow 60 2).2.tokens =
        ((bucketRun 20 50 0 [BucketOp.allowCall 7 1, BucketOp.snapshotCall 2]).refill 2).tokens - 60) ∧
    (((bucketRun 20 50 0 [BucketOp.allowCall 7 1, BucketOp.snapshotCall 2]).allow 60 2).1.allowed = false →
      ((bucketRun 20 50 0 [BucketOp.allowCall 7 1, BucketOp.snapshotCall 2]).allow 60 2).2.tokens =
        ((bucketRun 20 50 0 [BucketOp.allowCall 7 1, BucketOp.snapshotCall 2]).refill 2).tokens)) :=
  ⟨by norm_num, C2_bucket_invariant 20 50 0 (by norm_num)
    [BucketOp.allowCall 7 1, BucketOp.snapshotCall 2] 60 2⟩

/-- C4: for a bucket with `tokens` in `[0, capacity]`, a positive refill
rate, and a nonnegative elapsed time, `refill` yields exactly
`min(capacity, tokens + elapsed * refill_rate)`, and `last_refill` is
changed only when the elapsed time is positive, in which case it becomes
the current instant. -/
theorem C4_refill_conservation (b : TokenBucket) (now : ℚ)
    (_h0 : 0 ≤ b.tokens) (h1 : b.tokens ≤ b.bucket_capacity)
    (hrate : 0 < b.refill_rate) (helapsed : 0 ≤ now - b.last_refill) :
    (b.refill now).tokens =
      min b.bucket_capacity (b.tokens + (now - b.last_refill) * b.refill_rate) ∧
    ((b.refill now).last_refill ≠ b.last_refill →
      0 < now - b.last_refill ∧ (b.refill now).last_refill = now) := by
  unfold TokenBucket.refill
  split
  · rename_i h
    refine ⟨rfl, fun _ => ⟨?_, rfl⟩⟩
    by_contra hc
    push_neg at hc
    nlinarith
  · rename_i h
    push_neg at h
    have hz : (now - b.last_refill) * b.refill_rate = 0 :=
      le_antisymm h (mul_nonneg helapsed (le_of_lt hrate))
    refine ⟨?_, fun hne => absurd rfl hne⟩
    rw [hz, add_zero]
    exact (min_eq_right h1).symm

/-- Closed witness for `C4_refill_conservation`: the bucket
`(rate 5, capacity 50, tokens 2)` last refilled at instant 0, observed at
instant 3. -/
theorem C4_refill_conservation_witness :
    ((TokenBucket.mk 5 50 2 0).refill 3).tokens =
      min (TokenBucket.mk 5 50 2 0).bucket_capacity
        ((TokenBucket.mk 5 50 2 0).tokens +
          (3 - (TokenBucket.mk 5 50 2 0).last_refill) * (TokenBucket.mk 5 50 2 0).refill_rate) ∧
    (((TokenBucket.mk 5 50 2 0).refill 3).last_refill ≠ (TokenBucket.mk 5 50 2 0).last_refill →
      0 < 3 - (TokenBucket.mk 5 50 2 0).last_refill ∧
        ((TokenBucket.mk 5 50 2 0).refill 3).last_refill = 3) :=
  C4_refill_conservation (TokenBucket.mk 5 50 2 0) 3
    (by norm_num) (by norm_num) (by norm_num) (by norm_num)

/-- C5: a rejected `allow` call leaves the token count unchanged: it
reports `remaining` equal to the post-refill tokens, the stored bucket
keeps exactly those tokens, and an immediately following `get_tokens`
snapshot at the same instant observes the same count. -/
theorem C5_rejection_preserves_tokens (b : TokenBucket) (c : ℕ) (now : ℚ)
    (h : (b.allow c now).1.allowed = false) :
    (b.allow c now).1.remaining = (b.refill now).tokens ∧
    (b.allow c now).2.tokens = (b.refill now).tokens ∧
    ((b.allow c now).2.get_tokens now).1 = (b.refill now).tokens := by
  have hs := allow_false_state b c now h
  have hrem : (b.allow c now).1.remaining = (b.refill now).tokens := by
    unfold TokenBucket.allow at h ⊢
    by_cases hle : (c : ℚ) ≤ (b.refill now).tokens
    · rw [if_pos hle] at h; exact absurd h (by simp)
    · rw [if_neg hle]
  refine ⟨hrem, by rw [hs], ?_⟩
  rw [hs]
  show ((b.refill now).refill now).tokens = (b.refill now).tokens
  rw [refill_idem]

/-- Closed witness for `C5_rejection_preserves_tokens`: the bucket
`(rate 5, capacity 50, tokens 2)` rejects `allow(cost = 10)` at the same
instant. -/
theorem C5_rejection_preserves_tokens_witness :
    ((TokenBucket.mk 5 50 2 0).allow 10 0).1.remaining =
      ((TokenBucket.mk 5 50 2 0).refill 0).tokens ∧
    ((TokenBucket.mk 5 50 2 0).allow 10 0).2.tokens =
      ((TokenBucket.mk 5 50 2 0).refill 0).tokens ∧
    (((TokenBucket.mk 5 50 2 0).allow 10 0).2.get_tokens 0).1 =
      ((TokenBucket.mk 5 50 2 0).refill 0).tokens :=
  C5_rejection_preserves_tokens (TokenBucket.mk 5 50 2 0) 10 0
    (by rw [allow_at_now, if_neg (by norm_num)])

/-- C1, the claim as stated, is false: the code truncates the wait time
instead of rounding it up. With `refill_rate = 3`, `tokens = 0`, a rejected
`allow(cost = 1)` returns `retry_after_ms = 333`, while
`ceil((1 - 0) / 3 * 1000) = 334`. -/
theorem C1_counterexample :
    ((TokenBucket.mk 3 50 0 0).allow 1 0).1.allowed = false ∧
    ((TokenBucket.mk 3 50 0 0).allow 1 0).1.retry_after_ms = 333 ∧
    ⌈(((1 : ℚ) - 0) / 3) * 1000⌉ = 334 := by
  have e : (TokenBucket.mk 3 50 0 0).allow 1 0 =
      ({ allowed := false
         retry_after_ms := truncToZero (((((1 : ℕ) : ℚ)) - 0) / 3 * 1000)
         remaining := 0 }, TokenBucket.mk 3 50 0 0) := by
    rw [allow_at_now, if_neg (by norm_num)]
  have ht : truncToZero (((((1 : ℕ) : ℚ)) - 0) / 3 * 1000) = 333 := by
    unfold truncToZero
    rw [if_pos (by norm_num)]
    apply floorQ_eval <;> norm_num
  refine ⟨by rw [e], by rw [e]; exact ht, ?_⟩
  apply ceilQ_eval <;> norm_num

/-- C1 (amended): for every rejected `allow` call on a bucket with positive
refill rate, the returned `retry_after_ms` is the TRUNCATION (floor) of
`(cost - tokens) / refill_rate * 1000`, i.e. rounded down to the
millisecond, not up; the spec's concrete example (rate 5, tokens 2, cost 10)
nevertheless yields exactly 1600 because the value is an integer. -/
theorem C1_retry_after_truncated (b : TokenBucket) (c : ℕ) (now : ℚ)
    (hreject : (b.allow c now).1.allowed = false)
    (hrate : 0 < b.refill_rate) :
    (b.allow c now).1.retry_after_ms =
      ⌊(((c : ℚ) - (b.refill now).tokens) / b.refill_rate) * 1000⌋ ∧
    ((TokenBucket.mk 5 50 2 0).allow 10 0).1.retry_after_ms = 1600 := by
  constructor
  · unfold TokenBucket.allow at hreject ⊢
    by_cases hle : (c : ℚ) ≤ (b.refill now).tokens
    · rw [if_pos hle] at hreject; exact absurd hreject (by simp)
    · rw [if_neg hle] at hreject ⊢
      have hmiss : 0 < (c : ℚ) - (b.refill now).tokens := by
        push_neg at hle; linarith
      have hpos : 0 ≤ (((c : ℚ) - (b.refill now).tokens) / b.refill_rate) * 1000 := by
        positivity
      simp only [refill_refill_rate, truncToZero]
      rw [if_pos hpos]
  · rw [allow_at_now, if_neg (by norm_num)]
    show truncToZero (((((10 : ℕ) : ℚ)) - 2) / 5 * 1000) = 1600
    unfold truncToZero
    rw [if_pos (by norm_num)]
    apply floorQ_eval <;> norm_num

/-- Closed witness for `C1_retry_after_truncated`: the bucket
`(rate 5, capacity 50, tokens 2)` rejects `allow(cost = 10)` at the same
instant, and the hypotheses are satisfied at that input. -/
theorem C1_retry_after_truncated_witness :
    ((TokenBucket.mk 5 50 2 0).allow 10 0).1.retry_after_ms =
      ⌊(((10 : ℕ) : ℚ) - ((TokenBucket.mk 5 50 2 0).refill 0).tokens) / (TokenBucket.mk 5 50 2 0).refill_rate * 1000⌋ ∧
    ((TokenBucket.mk 5 50 2 0).allow 10 0).1.retry_after_ms = 1600 :=
  C1_retry_after_truncated (TokenBucket.mk 5 50 2 0) 10 0
    (by rw [allow_at_now, if_neg (by norm_num)]) (by norm_num)

theorem refill_mk (rate cap t now : ℚ) :
    (TokenBucket.mk rate cap t now).refill now = TokenBucket.mk rate cap t now :=
  refill_at_last _ _ rfl

/-- C3: `Configure` fails exactly when `refill_rate ≤ 0` or `capacity ≤ 0`,
and on failure returns the explanatory message and performs no mutation:
the registry is unchanged at every key. -/
theorem C3_configure_validation (r : Registry) (key k : String)
    (rate cap now : ℚ) :
    ((serviceConfigure r key rate cap now).1.success = false ↔ (rate ≤ 0 ∨ cap ≤ 0)) ∧
    ((rate ≤ 0 ∨ cap ≤ 0) →
      (serviceConfigure r key rate cap now).1.message =
        "Invalid rate limiter configuration. Values must be positive." ∧
      (serviceConfigure r key rate cap now).2 k = r k) := by
  unfold serviceConfigure
  by_cases h : rate ≤ 0 ∨ cap ≤ 0
  · rw [if_pos h]
    exact ⟨⟨fun _ => h, fun _ => rfl⟩, fun _ => ⟨rfl, rfl⟩⟩
  · rw [if_neg h]
    exact ⟨⟨fun hfalse => by simp at hfalse, fun hc => absurd hc h⟩, fun hc => absurd hc h⟩

/-- Closed witness for `C3_configure_validation`: configuring with
`refill_rate = -1` fails and leaves the pre-seeded `flags_list` entry of
the freshly constructed service untouched. -/
theorem C3_configure_validation_witness :
    ((serviceConfigure (Registry.init 0) "a" (-1) 5 0).1.success = false ↔
      ((-1 : ℚ) ≤ 0 ∨ (5 : ℚ) ≤ 0)) ∧
    (((-1 : ℚ) ≤ 0 ∨ (5 : ℚ) ≤ 0) →
      (serviceConfigure (Registry.init 0) "a" (-1) 5 0).1.message =
        "Invalid rate limiter configuration. Values must be positive." ∧
      (serviceConfigure (Registry.init 0) "a" (-1) 5 0).2 "flags_list" =
        Registry.init 0 "flags_list") :=
  C3_configure_validation (Registry.init 0) "a" "flags_list" (-1) 5 0

/-- C6: after a successful `Configure(key, rate, cap)`, an immediate
`Status(key)` at the same instant reports a full bucket
(`tokens_remaining = cap`) together with the new `refill_rate` and
`capacity`, regardless of any prior state for that key. -/
theorem C6_configure_resets (r : Registry) (key : String) (rate cap now : ℚ)
    (hrate : 0 < rate) (hcap : 0 < cap) :
    (serviceConfigure r key rate cap now).1.success = true ∧
    (serviceStatus (serviceConfigure r key rate cap now).2 key now).1.tokens_remaining = cap ∧
    (serviceStatus (serviceConfigure r key rate cap now).2 key now).1.refill_rate = rate ∧
    (serviceStatus (serviceConfigure r key rate cap now).2 key now).1.bucket_capacity = cap := by
  have hcond : ¬(rate ≤ 0 ∨ cap ≤ 0) := by push_neg; exact ⟨hrate, hcap⟩
  have h2 : (serviceConfigure r key rate cap now).2 =
      Registry.store r key (TokenBucket.create rate cap now) := by
    unfold serviceConfigure; rw [if_neg hcond]
  have h1 : (serviceConfigure r key rate cap now).1.success = true := by
    unfold serviceConfigure; rw [if_neg hcond]
  refine ⟨h1, ?_, ?_, ?_⟩ <;>
    simp [h2, serviceStatus, get_or_create_limiter, Registry.store,
      TokenBucket.get_tokens, TokenBucket.create, refill_mk]

/-- Closed witness for `C6_configure_resets`: configure an arbitrary key of
the freshly constructed service to `(rate 7, capacity 9)` and describe it
at the same instant. -/
theorem C6_configure_resets_witness :
    (serviceConfigure (Registry.init 0) "mykey" 7 9 0).1.success = true ∧
    (serviceStatus (serviceConfigure (Registry.init 0) "mykey" 7 9 0).2 "mykey" 0).1.tokens_remaining = 9 ∧
    (serviceStatus (serviceConfigure (Registry.init 0) "mykey" 7 9 0).2 "mykey" 0).1.refill_rate = 7 ∧
    (serviceStatus (serviceConfigure (Registry.init 0) "mykey" 7 9 0).2 "mykey" 0).1.bucket_capacity = 9 :=
  C6_configure_resets (Registry.init 0) "mykey" 7 9 0 (by norm_num) (by norm_num)

/-- C7: an `Allow` with cost 1 on a never-seen key lazily creates the
default bucket `(refill_rate 20, capacity 50)` starting full, is allowed
with `retry_after_ms = 0`, reports `quota_remaining = 49`, and stores the
default bucket with 49 tokens under the key. -/
theorem C7_lazy_default (r : Registry) (key : String) (now : ℚ)
    (h : r key = none) :
    (serviceAllow r key 1 now).1.allowed = true ∧
    (serviceAllow r key 1 now).1.retry_after_ms = 0 ∧
    (serviceAllow r key 1 now).1.quota_remaining = 49 ∧
    (serviceAllow r key 1 now).2 key = some (TokenBucket.mk 20 50 49 now) := by
  have e : TokenBucket.allow ⟨20, 50, 50, now⟩ 1 now =
      ({ allowed := true, retry_after_ms := 0, remaining := 50 - ((1 : ℕ) : ℚ) },
       ⟨20, 50, 50 - ((1 : ℕ) : ℚ), now⟩) := by
    rw [allow_at_now, if_pos (by norm_num)]
  have hget : get_or_create_limiter r key now =
      (TokenBucket.create 20 50 now, Registry.store r key (TokenBucket.create 20 50 now)) := by
    unfold get_or_create_limiter; rw [h]
  refine ⟨?_, ?_, ?_, ?_⟩ <;>
    norm_num [serviceAllow, hget, TokenBucket.create, e, Registry.store]

/-- Closed witness for `C7_lazy_default`: the empty-registry service has
never seen the key `fresh`. -/
theorem C7_lazy_default_witness :
    (serviceAllow (fun _ => none) "fresh" 1 0).1.allowed = true ∧
    (serviceAllow (fun _ => none) "fresh" 1 0).1.retry_after_ms = 0 ∧
    (serviceAllow (fun _ => none) "fresh" 1 0).1.quota_remaining = 49 ∧
    (serviceAllow (fun _ => none) "fresh" 1 0).2 "fresh" = some (TokenBucket.mk 20 50 49 0) :=
  C7_lazy_default (fun _ => none) "fresh" 0 rfl

/-- C8: `Allow` with `token_cost = 0` is identical to `Allow` with
`token_cost = 1` on every registry, key and instant: same response and
same resulting registry, because a zero cost is normalized to one. -/
theorem C8_zero_cost_normalized (r : Registry) (key : String) (now : ℚ) :
    serviceAllow r key 0 now = serviceAllow r key 1 now := rfl

/-- The serialized effect of `n` back-to-back `allow(cost = 1)` calls at one
instant, counting how many are allowed. The per-bucket mutex (server.cc
line 32) makes each refill-then-decide a single atomic unit, so a
concurrent execution of identical `allow` calls is observationally some
sequence of whole critical sections; since all the calls are identical,
every interleaving is this one sequence. -/
def runAllows (b : TokenBucket) (now : ℚ) : ℕ → ℕ
  | 0 => 0
  | n + 1 =>
      (if (TokenBucket.allow b 1 now).1.allowed then 1 else 0) +
        runAllows (TokenBucket.allow b 1 now).2 now n

theorem runAllows_mk (rate cap now : ℚ) (n : ℕ) :
    ∀ (t : ℚ), 0 ≤ t →
      runAllows (TokenBucket.mk rate cap t now) now n = min n (Int.toNat ⌊t⌋) := by
  induction n with
  | zero => intro t ht; simp [runAllows]
  | succ n ih =>
      intro t ht
      by_cases hle : (1 : ℚ) ≤ t
      · have e : TokenBucket.allow (TokenBucket.mk rate cap t now) 1 now =
            ({ allowed := true, retry_after_ms := 0, remaining := t - 1 },
             TokenBucket.mk rate cap (t - 1) now) := by
          rw [allow_at_now, if_pos (by rw [Nat.cast_one]; exact hle)]
          norm_num
        have ht1 : (0 : ℚ) ≤ t - 1 := by linarith
        have hrec := ih (t - 1) ht1
        have hfloor : ⌊t - 1⌋ = ⌊t⌋ - 1 := by
          rw [show ((1 : ℚ)) = ((1 : ℤ) : ℚ) by norm_num, Int.floor_sub_int]
        have hge1 : 1 ≤ ⌊t⌋ := by
          rw [Int.le_floor]; exact_mod_cast hle
        rw [runAllows, e]
        norm_num
        rw [hrec, hfloor]
        omega
      · have e : TokenBucket.allow (TokenBucket.mk rate cap t now) 1 now =
            ({ allowed := false
               retry_after_ms := truncToZero (((((1 : ℕ) : ℚ)) - t) / rate * 1000)
               remaining := t },
             TokenBucket.mk rate cap t now) := by
          rw [allow_at_now, if_neg (by rw [Nat.cast_one]; exact hle)]
        have hfloor0 : ⌊t⌋ = 0 := by
          apply floorQ_eval
          · exact_mod_cast ht
          · push_neg at hle
            push_cast
            linarith
        have hrec := ih t ht
        rw [runAllows, e]
        norm_num
        rw [hrec, hfloor0]
        omega

/-- C9: no double-spend. The per-bucket mutex serializes concurrent
`decide` calls, so a concurrent execution is modelled as a sequence of
whole `allow` critical sections; for a fresh bucket with capacity `cap`
(hence `tokens = cap`) and at least `⌊cap⌋` calls of cost 1 at one
instant, exactly `⌊cap⌋` of them (i.e. `cap` itself when integral)
succeed and the rest are rejected. -/
theorem C9_no_double_spend (rate cap t0 : ℚ) (n : ℕ)
    (hcap : 0 ≤ cap) (hn : Int.toNat ⌊cap⌋ ≤ n) :
    runAllows (TokenBucket.create rate cap t0) t0 n = Int.toNat ⌊cap⌋ := by
  have h : runAllows (TokenBucket.mk rate cap cap t0) t0 n = min n (Int.toNat ⌊cap⌋) :=
    runAllows_mk rate cap t0 n cap hcap
  calc runAllows (TokenBucket.create rate cap t0) t0 n
      = min n (Int.toNat ⌊cap⌋) := h
    _ = Int.toNat ⌊cap⌋ := by omega

/-- Closed witness for `C9_no_double_spend`: a bucket of capacity 3 faced
with 5 serialized unit-cost calls admits exactly 3 of them. -/
theorem C9_no_double_spend_witness :
    0 ≤ (3 : ℚ) ∧ Int.toNat ⌊(3 : ℚ)⌋ ≤ 5 ∧
    runAllows (TokenBucket.create 5 3 0) 0 5 = Int.toNat ⌊(3 : ℚ)⌋ :=
  ⟨by norm_num,
   by rw [floorQ_eval (3 : ℚ) 3 (by norm_num) (by norm_num)]; norm_num,
   C9_no_double_spend 5 3 0 5 (by norm_num)
     (by rw [floorQ_eval (3 : ℚ) 3 (by norm_num) (by norm_num)]; norm_num)⟩

/-- The RPC-level operations of the service. -/
inductive ServiceOp where
  | allowRpc (key : String) (cost : ℕ) (now : ℚ)
  | statusRpc (key : String) (now : ℚ)
  | configureRpc (key : String) (rate cap now : ℚ)

/-- Apply one RPC to the registry, keeping only the registry post-state. -/
def ServiceOp.apply (r : Registry) : ServiceOp → Registry
  | .allowRpc k c now => (serviceAllow r k c now).2
  | .statusRpc k now => (serviceStatus r k now).2
  | .configureRpc k rate cap now => (serviceConfigure r k rate cap now).2

/-- Every bucket held by the registry has positive parameters. -/
def GoodRegistry (r : Registry) : Prop :=
  ∀ k b, r k = some b → 0 < b.refill_rate ∧ 0 < b.bucket_capacity

theorem allow_params (b : TokenBucket) (c : ℕ) (now : ℚ) :
    (b.allow c now).2.refill_rate = b.refill_rate ∧
      (b.allow c now).2.bucket_capacity = b.bucket_capacity := by
  unfold TokenBucket.allow
  by_cases hle : (c : ℚ) ≤ (b.refill now).tokens
  · rw [if_pos hle]; exact ⟨refill_refill_rate b now, refill_capacity b now⟩
  · rw [if_neg hle]; exact ⟨refill_refill_rate b now, refill_capacity b now⟩

theorem store_good (r : Registry) (key : String) (b : TokenBucket)
    (hr : GoodRegistry r) (hb : 0 < b.refill_rate ∧ 0 < b.bucket_capacity) :
    GoodRegistry (Registry.store r key b) := by
  intro k b2 h2
  unfold Registry.store at h2
  by_cases hk : k = key
  · rw [if_pos hk] at h2
    cases h2
    exact hb
  · rw [if_neg hk] at h2
    exact hr k b2 h2

theorem get_or_create_good (r : Registry) (key : String) (now : ℚ)
    (hr : GoodRegistry r) :
    (0 < (get_or_create_limiter r key now).1.refill_rate ∧
      0 < (get_or_create_limiter r key now).1.bucket_capacity) ∧
    GoodRegistry (get_or_create_limiter r key now).2 := by
  unfold get_or_create_limiter
  cases hk : r key with
  | some b => exact ⟨hr key b hk, hr⟩
  | none =>
      refine ⟨⟨by norm_num [TokenBucket.create], by norm_num [TokenBucket.create]⟩, ?_⟩
      exact store_good r key _ hr
        ⟨by norm_num [TokenBucket.create], by norm_num [TokenBucket.create]⟩

theorem serviceAllow_good (r : Registry) (key : String) (c : ℕ) (now : ℚ)
    (hr : GoodRegistry r) : GoodRegistry (serviceAllow r key c now).2 := by
  have hg := get_or_create_good r key now hr
  have hp := allow_params (get_or_create_limiter r key now).1 (if c = 0 then 1 else c) now
  show GoodRegistry (Registry.store (get_or_create_limiter r key now).2 key
    ((get_or_create_limiter r key now).1.allow (if c = 0 then 1 else c) now).2)
  apply store_good _ _ _ hg.2
  constructor
  · rw [hp.1]; exact hg.1.1
  · rw [hp.2]; exact hg.1.2

theorem serviceStatus_good (r : Registry) (key : String) (now : ℚ)
    (hr : GoodRegistry r) : GoodRegistry (serviceStatus r key now).2 := by
  have hg := get_or_create_good r key now hr
  show GoodRegistry (Registry.store (get_or_create_limiter r key now).2 key
    ((get_or_create_limiter r key now).1.refill now))
  apply store_good _ _ _ hg.2
  constructor
  · rw [refill_refill_rate]; exact hg.1.1
  · rw [refill_capacity]; exact hg.1.2

theorem serviceConfigure_good (r : Registry) (key : String)
    (rate cap now : ℚ) (hr : GoodRegistry r) :
    GoodRegistry (serviceConfigure r key rate cap now).2 := by
  unfold serviceConfigure
  by_cases h : rate ≤ 0 ∨ cap ≤ 0
  · rw [if_pos h]; exact hr
  · rw [if_neg h]
    push_neg at h
    exact store_good r key _ hr ⟨h.1, h.2⟩

theorem init_good (t0 : ℚ) : GoodRegistry (Registry.init t0) := by
  intro k b h
  unfold Registry.init at h
  by_cases h1 : k = "flags_list"
  · rw [if_pos h1] at h
    cases h
    exact ⟨by norm_num [TokenBucket.create], by norm_num [TokenBucket.create]⟩
  · rw [if_neg h1] at h
    by_cases h2 : k = "flag_write"
    · rw [if_pos h2] at h
      cases h
      exact ⟨by norm_num [TokenBucket.create], by norm_num [TokenBucket.create]⟩
    · rw [if_neg h2] at h
      exact absurd h (by simp)

/-- C10: although the `TokenBucket` constructor does not validate its
parameters, every bucket reachable through the service's RPC surface
(starting from the pre-seeded registry, under any sequence of Allow,
Status and Configure calls) has `0 < refill_rate` and
`0 < bucket_capacity`, so the division by `refill_rate_` on the rejection
path never divides by zero or a non-positive number. -/
theorem C10_reachable_params_positive (t0 : ℚ) (ops : List ServiceOp)
    (k : String) (b : TokenBucket)
    (h : List.foldl ServiceOp.apply (Registry.init t0) ops k = some b) :
    0 < b.refill_rate ∧ 0 < b.bucket_capacity := by
  have main : ∀ (l : List ServiceOp) (r : Registry), GoodRegistry r →
      GoodRegistry (List.foldl ServiceOp.apply r l) := by
    intro l
    induction l with
    | nil => intro r hr; exact hr
    | cons op rest ih =>
        intro r hr
        apply ih
        cases op with
        | allowRpc key c now => exact serviceAllow_good r key c now hr
        | statusRpc key now => exact serviceStatus_good r key now hr
        | configureRpc key rate cap now => exact serviceConfigure_good r key rate cap now hr
  exact main ops (Registry.init t0) (init_good t0) k b h

/-- Closed witness for `C10_reachable_params_positive`: the pre-seeded
`flags_list` bucket of the freshly constructed service. -/
theorem C10_reachable_params_positive_witness :
    0 < (TokenBucket.create 10 100 0).refill_rate ∧
    0 < (TokenBucket.create 10 100 0).bucket_capacity :=
  C10_reachable_params_positive 0 [] "flags_list" (TokenBucket.create 10 100 0)
    (by simp [Registry.init])

end RateLimiterCpp
